import Mathlib

/-!
Verification of the off-chain payment channel core (gdanezis/off-chain-reference).

This file gives a shallow embedding, in Lean 4, of the parts of the repository
that the checked claims are about:

* the shared-object executor (`src/executor.py`): `SharedObject`,
  `ProtocolCommand`, `ProtocolExecutor.sequence_next_command`,
  `ProtocolExecutor.set_success`, `ProtocolExecutor.set_fail`;
* the pair-channel state machine (`src/offchainapi/protocol.py`):
  role assignment (`is_client` / `is_server`), `sequence_command_local`,
  `_handle_request`, `_handle_response`, `process_waiting_messages`,
  `would_retransmit`, `has_pending_responses`;
* the storage key derivation (`src/offchainapi/storage.py`): `key_join`;
* version identifier generation (`get_unique_string` in `src/executor.py`).

Python dictionaries are embedded as association lists with unique keys,
Python exceptions as values of an explicit `PyErr` error type threaded through
`Except`, and the mutable object state as explicit state passing.  The
process-wide random generator (`urandom`) is embedded by passing the drawn
entropy bytes as an explicit argument.  Classes that the claims depend on but
whose source files are absent (`offchainapi/protocol_messages.py`,
`offchainapi/libra_address.py`) are modelled from the specification and are
marked as such in their doc comments.
-/

namespace OffChain

/-! ## Object store: Python `dict` keyed by version strings -/
/-- Version identifiers are opaque strings (Python uses the raw bytes returned
by `get_unique_string`). -/
abbrev Version := String

/-- One revision of a shared object, from `SharedObject.__init__` in
`src/executor.py` (the `version` field is set by the caller from the drawn
entropy, see `SharedObject.init` below).  The Python attribute `extends` is a
Lean keyword, so it is named `extendsList` here. -/
structure SharedObject where
  version : Version
  extendsList : List Version
  potentially_live : Bool
  actually_live : Bool
deriving Repr, DecidableEq

/-- The shared object store `ProtocolExecutor.object_store`: a Python `dict`
mapping version identifiers to objects, embedded as an association list with
unique keys. -/
abbrev Store := List (Version × SharedObject)

/-- Python `store[k]` returning `None`-style absence: first (unique) match. -/
def storeGet (s : Store) (k : Version) : Option SharedObject :=
  match s with
  | [] => none
  | (k0, o) :: rest => if k0 = k then some o else storeGet rest k

/-- Remove the entry for `k` (helper for `del store[k]` and insertion). -/
def storeErase (s : Store) (k : Version) : Store :=
  match s with
  | [] => []
  | (k0, o) :: rest => if k0 = k then storeErase rest k else (k0, o) :: storeErase rest k

/-- Python `store[k] = o`: replace any previous binding of `k`. -/
def storeSet (s : Store) (k : Version) (o : SharedObject) : Store :=
  (k, o) :: storeErase s k

/-! ## Commands -/
/-- Hook invocations recorded when the executor commits a command; used to
state that `set_success` / `set_fail` invoke `on_success` / `on_fail`.  A
command is identified by its opaque payload. -/
inductive ExecEvent where
  | onSuccessEv (payload : String)
  | onFailEv (payload : String)
deriving Repr, DecidableEq

/-- A protocol command, from `ProtocolCommand` in `src/executor.py`.  The
opaque application payload is a string; `validity_checks` and `get_object` are
the abstract methods that subclasses override (the executor's business context
is opaque and is absorbed into the `validity_checks` closure).  `origin` is the
address set by `set_origin` in the channel (peer or self address bytes). -/
structure Command where
  depend_on : List Version
  creates : List Version
  commit_status : Option Bool
  payload : String
  origin : Option (List Nat)
  validity_checks : Store → Bool → Except String Unit
  get_object : Version → Store → SharedObject

/-- Python `command.get_dependencies()` returns `set(self.depend_on)`:
duplicates are collapsed. -/
def getDependencies (c : Command) : List Version :=
  c.depend_on.dedup

/-- Python `command.new_object_versions()` returns `set(self.creates)`. -/
def newObjectVersions (c : Command) : List Version :=
  c.creates.dedup

/-- Structural equality of commands (Python `__eq__` on command subclasses
compares `depend_on`, `creates` and the payload, see `SampleCommand.__eq__`). -/
def commandEq (c1 c2 : Command) : Bool :=
  c1.depend_on = c2.depend_on ∧ c1.creates = c2.creates ∧ c1.payload = c2.payload

/-! ## The executor -/
/-- Persistent executor state, from `ProtocolExecutor.__init__` in
`src/executor.py`: the command sequence `seq`, the commit cursor
`last_confirmed` and the `object_store`; `events` is a ghost log recording
which commit hooks (`on_success` / `on_fail`) were invoked. -/
structure ExecState where
  seq : List Command
  last_confirmed : Nat
  object_store : Store
  events : List ExecEvent

/-- Python `ProtocolExecutor.next_seq()`. -/
def ExecState.next_seq (st : ExecState) : Nat :=
  st.seq.length

/-- The per-object liveness predicate chosen in `sequence_next_command`:
`predicate = [predicate_other, predicate_own][own]`, where own commands are
checked speculatively (`potentially_live`) and the other side's commands
against committed liveness (`actually_live`). -/
def livenessPredicate (own : Bool) (o : SharedObject) : Bool :=
  if own then o.potentially_live else o.actually_live

/-- Python `ProtocolExecutor.all_true(versions, predicate)`: every version is
present in the store and satisfies the predicate. -/
def allTrue (s : Store) (versions : List Version) (own : Bool) : Bool :=
  versions.all (fun v =>
    match storeGet s v with
    | some o => livenessPredicate own o
    | none => false)

/-- The store after inserting the objects created by `command`: for each
version in `new_versions`, `get_object` constructs the object, which is stored
with `potentially_live = True` (the loop at the end of
`sequence_next_command`). -/
def insertCreates (c : Command) (vs : List Version) (s : Store) : Store :=
  match vs with
  | [] => s
  | v :: rest => insertCreates c rest (storeSet s v { c.get_object v s with potentially_live := true })

/-- Embedding of `ProtocolExecutor.sequence_next_command` from
`src/executor.py` (lines 144–181).  Returns the new executor state together
with either the assigned position or the `ExecutorException` message.  The
`finally` block sequences the command even on failure unless
`do_not_sequence_errors` was passed; on failure the exception still
propagates, so the position is only returned on success. -/
def sequence_next_command (st : ExecState) (command : Command)
    (do_not_sequence_errors : Bool) (own : Bool) : ExecState × Except String Nat :=
  let dependencies := getDependencies command
  let all_good := allTrue st.object_store dependencies own
  if all_good then
    match command.validity_checks st.object_store own with
    | Except.error e =>
      -- the `except` clause resets `all_good`; `finally` then sequences
      -- the command only when errors are to be sequenced
      (if do_not_sequence_errors then st else { st with seq := st.seq ++ [command] },
       Except.error e)
    | Except.ok _ =>
      let store1 := insertCreates command (newObjectVersions command) st.object_store
      ({ st with object_store := store1, seq := st.seq ++ [command] },
       Except.ok st.seq.length)
  else
    (if do_not_sequence_errors then st else { st with seq := st.seq ++ [command] },
     Except.error "Required objects do not exist")

/-- Python `del store[v]` for every dependency, in order; `del` raises
`KeyError` (here `none`) when the key is absent. -/
def storeDeleteAll (s : Store) (vs : List Version) : Option Store :=
  match vs with
  | [] => some s
  | v :: rest =>
    match storeGet s v with
    | some _ => storeDeleteAll (storeErase s v) rest
    | none => none

/-- The `set_success` loop over created versions: look each one up (a missing
key raises `KeyError`, here `none`) and set `actually_live = True`. -/
def storeSetLiveAll (s : Store) (vs : List Version) : Option Store :=
  match vs with
  | [] => some s
  | v :: rest =>
    match storeGet s v with
    | some o => storeSetLiveAll (storeSet s v { o with actually_live := true }) rest
    | none => none

/-- Embedding of `ProtocolExecutor.set_success` from `src/executor.py` (lines
183–200).  `none` embeds a raised exception (`assert seq_no ==
self.last_confirmed`, an out-of-range index, or a `KeyError` from the store);
the surrounding storage transaction rolls the state back in that case. -/
def set_success (st : ExecState) (seq_no : Nat) : Option ExecState :=
  if seq_no = st.last_confirmed then
    match st.seq.get? seq_no with
    | none => none
    | some command =>
      let command1 := { command with commit_status := some true }
      match storeDeleteAll st.object_store (getDependencies command) with
      | none => none
      | some s1 =>
        match storeSetLiveAll s1 (newObjectVersions command) with
        | none => none
        | some s2 =>
          some { st with
                  last_confirmed := st.last_confirmed + 1,
                  seq := st.seq.set seq_no command1,
                  object_store := s2,
                  events := st.events ++ [ExecEvent.onSuccessEv command.payload] }
  else none

/-- Removal of created versions in `set_fail`: only present keys are deleted
(`if version in self.object_store: del ...`). -/
def storeDropAll (s : Store) (vs : List Version) : Store :=
  vs.foldl (fun acc v => storeErase acc v) s

/-- Embedding of `ProtocolExecutor.set_fail` from `src/executor.py` (lines
202–214). -/
def set_fail (st : ExecState) (seq_no : Nat) : Option ExecState :=
  if seq_no = st.last_confirmed then
    match st.seq.get? seq_no with
    | none => none
    | some command =>
      let command1 := { command with commit_status := some false }
      some { st with
              last_confirmed := st.last_confirmed + 1,
              seq := st.seq.set seq_no command1,
              object_store := storeDropAll st.object_store (newObjectVersions command),
              events := st.events ++ [ExecEvent.onFailEv command.payload] }
  else none

/-! ## Version identifier generation (C8)

`src/executor.py` defines `get_unique_string()` as
`standard_b64encode(urandom(16))`; `SharedObject.__init__` and
`SharedObject.new_version` use it to mint versions.  The drawn random bytes
are passed explicitly as `entropy`. -/
/-- Character `n` of the standard Base64 alphabet. -/
def b64Char (n : Nat) : Char :=
  "ABCDEFGHIJKLMNOPQRSTUVWXYZabcdefghijklmnopqrstuvwxyz0123456789+/".toList.getD n 'A'

/-- Standard Base64 encoding of a byte list (RFC 4648 with `=` padding), as
computed by Python's `base64.standard_b64encode`. -/
def b64encodeChars : List Nat → List Char
  | [] => []
  | [b1] => [b64Char (b1 / 4), b64Char (b1 % 4 * 16), '=', '=']
  | [b1, b2] => [b64Char (b1 / 4), b64Char (b1 % 4 * 16 + b2 / 16), b64Char (b2 % 16 * 4), '=']
  | b1 :: b2 :: b3 :: rest =>
    b64Char (b1 / 4) :: b64Char (b1 % 4 * 16 + b2 / 16) ::
      b64Char (b2 % 16 * 4 + b3 / 64) :: b64Char (b3 % 64) :: b64encodeChars rest

/-- Python `get_unique_string()` from `src/executor.py`:
`standard_b64encode(urandom(16))`, with the 16 random bytes passed in. -/
def get_unique_string (entropy : List Nat) : String :=
  ⟨b64encodeChars entropy⟩

/-- Python `SharedObject.__init__` from `src/executor.py`: a fresh version
from the random generator, no predecessors, and both liveness flags false. -/
def SharedObject.init (entropy : List Nat) : SharedObject :=
  { version := get_unique_string entropy
    extendsList := []
    potentially_live := false
    actually_live := false }

/-- Python `SharedObject.new_version` from `src/executor.py`: a deep copy
whose `extends` points at the old version; the version is the explicit
argument if given and a fresh random one otherwise; both flags reset. -/
def SharedObject.new_version (self : SharedObject) (version : Option Version)
    (entropy : List Nat) : SharedObject :=
  { self with
      extendsList := [self.version]
      version := match version with
        | some v => v
        | none => get_unique_string entropy
      potentially_live := false
      actually_live := false }

/-- The property the claim asserts, written from the spec's words: a version
identifier is 16 random bytes rendered as hex, i.e. a 32-character
hexadecimal string. -/
def specVersionIsHex32 (v : Version) : Bool :=
  v.length = 32 &&
    v.data.all (fun c => c.isDigit || ('a' ≤ c && c ≤ 'f') || ('A' ≤ c && c ≤ 'F'))

/-! ## Role assignment (C2)

The file `offchainapi/libra_address.py` is absent from the sources; following
the spec, an address is an opaque byte string with `last_bit()` and
lexicographic comparison, and `as_str` is an injective rendering (so equality
of `as_str` is equality of the byte strings). -/
/-- Modelled from the spec: a VASP address is an opaque byte string
(`libra_address.py` is missing from the sources). -/
structure LibraAddress where
  bytes : List Nat
deriving Repr, DecidableEq

/-- Lexicographic strict comparison of byte strings (Python `<` on `bytes`):
a proper prefix is smaller. -/
def lexLt : List Nat → List Nat → Bool
  | [], [] => false
  | [], _ :: _ => true
  | _ :: _, [] => false
  | a :: as, b :: bs => if a < b then true else if b < a then false else lexLt as bs

/-- Modelled from the spec: `LibraAddress.greater_than_or_equal` is
lexicographic `>=` on the byte strings. -/
def LibraAddress.greater_than_or_equal (a b : LibraAddress) : Bool :=
  !(lexLt a.bytes b.bytes)

/-- Modelled from the spec: `LibraAddress.last_bit` is the last bit of the
byte string. -/
def LibraAddress.last_bit (a : LibraAddress) : Nat :=
  (a.bytes.getLast?.getD 0) % 2

/-- Embedding of `VASPPairChannel.is_client` from `offchainapi/protocol.py`
(lines 202–213): `bit = lastbit(self) ^ lastbit(other)`; for `bit = 0` the
local VASP is client iff its address is lexicographically `>=` the peer's,
for `bit = 1` iff it is `<` (the final branch is unreachable since the xor of
two bits is 0 or 1). -/
def is_client (myself other : LibraAddress) : Bool :=
  let bit := myself.last_bit ^^^ other.last_bit
  if bit = 0 then myself.greater_than_or_equal other
  else if bit = 1 then !(myself.greater_than_or_equal other)
  else false

/-- Python `VASPPairChannel.is_server`. -/
def is_server (myself other : LibraAddress) : Bool :=
  !(is_client myself other)

/-- The self-channel guard in `VASPPairChannel.__init__` (protocol.py lines
106–108): a channel from an address to itself raises. -/
def channel_init_check (myself other : LibraAddress) : Except String Unit :=
  if myself.bytes = other.bytes then Except.error "Must talk to another VASP"
  else Except.ok ()

/-! ## Storage key derivation (C7)

`key_join` in `offchainapi/storage.py` (lines 104–107) joins a list of
strings as `'||'.join([f'[\x7blen(s)\x7d:\x7bs\x7d]' for s in strs])`; the
namespace of a storable is the SHA-256 of the joined base key, so namespace
collisions (up to hash collisions) reduce to `key_join` collisions.  Strings
are embedded as lists of characters. -/
/-- Decimal digit characters of a natural number, most significant first
(Python `str(n)` as interpolated by the f-string). -/
def decChars (n : Nat) : List Char :=
  if n = 0 then ['0']
  else (Nat.digits 10 n).reverse.map (fun d => Char.ofNat (48 + d))

/-- The f-string fragment for one element. -/
def encodeOne (s : List Char) : List Char :=
  '[' :: decChars s.length ++ ':' :: s ++ [']']

/-- Embedding of `key_join` from `offchainapi/storage.py`: the fragments
joined with the separator `||`. -/
def key_join : List (List Char) → List Char
  | [] => []
  | [s] => encodeOne s
  | s :: rest :: more => encodeOne s ++ '|' :: '|' :: key_join (rest :: more)

/-- Base key of a storable (`StorableDict.base_key`, storage.py lines
257–258): the root path with the name appended. -/
def base_key (root : List (List Char)) (name : List Char) : List (List Char) :=
  root ++ [name]

/-! ## Protocol messages

The file `offchainapi/protocol_messages.py` is absent from the sources; the
request/response shapes and constructors below are modelled from the spec
(§3 Data model, §4.4 Protocol messages): a request carries the sender's
per-channel `seq`, an optional `command_seq`, the command, and the attached
response; a response carries the echoed `seq` (absent when the request could
not even be parsed), `command_seq`, a status in success/failure, and an
optional error that is flagged as a protocol error for the codes
`wait`/`missing`/`conflict`/`malformed`/`parsing`. -/
/-- Python exceptions crossing the embedded handlers.  `assertionError`
stands for any exception raised by the commit helpers (a failed `assert`, an
out-of-range index or a `KeyError`), `executorError` for an
`ExecutorException` escaping to the caller, `typeError` for Python comparing
`None` with an `int`, `attributeError` for reading an attribute that the
object does not have, and `outOfFuel` marks exhaustion of the step budget
used to embed the re-entrant drain loops. -/
inductive PyErr where
  | executorError (msg : String)
  | assertionError
  | typeError
  | keyError
  | attributeError (name : String)
  | outOfFuel
deriving Repr, DecidableEq

/-- Modelled from the spec: the error payload of a response
(`OffChainError`), with its protocol-error flag and code. -/
structure OffChainError where
  protocol_error : Bool
  code : String
  message : String
deriving Repr, DecidableEq

/-- Modelled from the spec: `CommandResponseObject` (the `cid` correlator is
opaque and not inspected by the embedded logic). -/
structure CommandResponseObject where
  seq : Option Nat
  command_seq : Option Nat
  status : String
  error : Option OffChainError
  previous_command : Option Command

/-- Modelled from the spec: `CommandRequestObject` (the `seq` field is
assigned by the channel before the request is used). -/
structure CommandRequestObject where
  seq : Nat
  command_seq : Option Nat
  command : Command
  response : Option CommandResponseObject

/-- Python `CommandRequestObject.has_response()`. -/
def CommandRequestObject.has_response (r : CommandRequestObject) : Bool :=
  r.response.isSome

/-- Python `CommandRequestObject.is_success()`: the attached response has
status success. -/
def CommandRequestObject.is_success (r : CommandRequestObject) : Bool :=
  match r.response with
  | some resp => decide (resp.status = "success")
  | none => false

/-- Python `CommandRequestObject.is_same_command(other)`: equality of the
embedded commands. -/
def is_same_command (r1 r2 : CommandRequestObject) : Bool :=
  commandEq r1.command r2.command

/-- Python `CommandResponseObject.not_protocol_failure()`: success, or a
failure whose error is not flagged as a protocol error. -/
def not_protocol_failure (r : CommandResponseObject) : Bool :=
  match r.error with
  | none => true
  | some e => !e.protocol_error

/-- Modelled from the spec: `make_success_response(request)`. -/
def make_success_response (req : CommandRequestObject) : CommandResponseObject :=
  { seq := some req.seq, command_seq := req.command_seq, status := "success",
    error := none, previous_command := none }

/-- Modelled from the spec: `make_protocol_error(request, code)`. -/
def make_protocol_error (req : CommandRequestObject) (code : String) : CommandResponseObject :=
  { seq := some req.seq, command_seq := req.command_seq, status := "failure",
    error := some { protocol_error := true, code := code, message := "" },
    previous_command := none }

/-- Modelled from the spec: `make_command_error(request, message)` — a
failure response that is not a protocol error (the executor rejected the
command). -/
def make_command_error (req : CommandRequestObject) (message : String) : CommandResponseObject :=
  { seq := some req.seq, command_seq := req.command_seq, status := "failure",
    error := some { protocol_error := false, code := "command_failure", message := message },
    previous_command := none }

/-- Python `command.set_origin(address)`. -/
def Command.set_origin (c : Command) (a : LibraAddress) : Command :=
  { c with origin := some a.bytes }

/-! ## Channel state -/
/-- Association lists standing for the Python dicts keyed by integers
(`response_cache`, `waiting_requests`, `waiting_response`). -/
def alistGet {α : Type} (m : List (Nat × α)) (k : Nat) : Option α :=
  match m with
  | [] => none
  | (k0, v) :: rest => if k0 = k then some v else alistGet rest k

/-- Removal of a key from an integer-keyed dict. -/
def alistErase {α : Type} (m : List (Nat × α)) (k : Nat) : List (Nat × α) :=
  match m with
  | [] => []
  | (k0, v) :: rest => if k0 = k then alistErase rest k else (k0, v) :: alistErase rest k

/-- Python `m[k] = v` on an integer-keyed dict. -/
def alistSet {α : Type} (m : List (Nat × α)) (k : Nat) (v : α) : List (Nat × α) :=
  (k, v) :: alistErase m k

/-- The channel state of `VASPPairChannel` (protocol.py lines 99–146): the
two addresses, the persisted `my_requests`, `other_requests`,
`next_retransmit` and executor, and the ephemeral `response_cache` and
reorder buffers (buffered inbound messages are stored parsed; the completion
futures and timestamps attached to buffered entries play no role in the
embedded logic). -/
structure ChannelState where
  myself : LibraAddress
  other : LibraAddress
  my_requests : List CommandRequestObject
  other_requests : List CommandRequestObject
  next_retransmit : Nat
  executor : ExecState
  response_cache : List (Nat × CommandResponseObject)
  waiting_requests : List (Nat × List CommandRequestObject)
  waiting_response : List (Nat × List CommandResponseObject)

/-- Python `VASPPairChannel.my_next_seq`. -/
def my_next_seq (st : ChannelState) : Nat :=
  st.my_requests.length

/-- Python `VASPPairChannel.other_next_seq`. -/
def other_next_seq (st : ChannelState) : Nat :=
  st.other_requests.length

/-- Python `VASPPairChannel.next_final_sequence`: `executor.next_seq()`. -/
def next_final_sequence (st : ChannelState) : Nat :=
  st.executor.next_seq

/-- Python `VASPPairChannel.num_pending_responses`: how many of my requests
have no response yet. -/
def num_pending_responses (st : ChannelState) : Nat :=
  (st.my_requests.filter (fun req => !req.has_response)).length

/-- Role of the channel's local side. -/
def ch_is_client (st : ChannelState) : Bool :=
  is_client st.myself st.other

/-- Python `VASPPairChannel.is_server`. -/
def ch_is_server (st : ChannelState) : Bool :=
  !(ch_is_client st)

/-- A wire message as produced by `send_request` (the JSON rendering and the
debug tap are irrelevant to the claims). -/
structure NetMessage where
  src : LibraAddress
  dst : LibraAddress
  request : CommandRequestObject

/-! ## Local command submission (C5) -/
/-- Embedding of `VASPPairChannel.sequence_command_local` (protocol.py lines
254–275).  The request takes the next local sequence number; a server
additionally pre-assigns `command_seq` and pre-sequences the command
speculatively with `do_not_sequence_errors = True`.  If the executor raises,
the exception propagates and the enclosing `atomic_writes` scope
(storage.py lines 215–224) rolls every persistent write back, so the
returned state is the entry state and no wire request is produced;
otherwise the request is appended to `my_requests` and emitted. -/
def sequence_command_local (st : ChannelState) (off_chain_command : Command) :
    ChannelState × Except PyErr NetMessage :=
  let cmd := off_chain_command.set_origin st.myself
  let request0 : CommandRequestObject :=
    { seq := my_next_seq st, command_seq := none, command := cmd, response := none }
  if ch_is_server st then
    let request1 := { request0 with command_seq := some (next_final_sequence st) }
    let res := sequence_next_command st.executor cmd true true
    match res.2 with
    | Except.error e => (st, Except.error (PyErr.executorError e))
    | Except.ok _ =>
      ({ st with executor := res.1, my_requests := st.my_requests ++ [request1] },
       Except.ok ⟨st.myself, st.other, request1⟩)
  else
    ({ st with my_requests := st.my_requests ++ [request0] },
     Except.ok ⟨st.myself, st.other, request0⟩)

/-! ## Retransmission (C9) -/
/-- The cursor-advancing loop of `would_retransmit` (protocol.py lines
563–570): starting from `next_retransmit`, skip past requests that already
have a response; stop at the first without one or at the end of
`my_requests`.  The loop runs at most `my_requests.length` times, which is
the fuel passed by the callers. -/
def advanceRetransmit (reqs : List CommandRequestObject) : Nat → Nat → Nat
  | idx, 0 => idx
  | idx, Nat.succ fuel =>
    match reqs.get? idx with
    | some request => if request.has_response then advanceRetransmit reqs (idx + 1) fuel else idx
    | none => idx

/-- Embedding of `VASPPairChannel.would_retransmit` (protocol.py lines
554–575).  The advanced cursor is persisted; `request_to_send` is only ever
set when `do_retransmit` is true, and the function returns the re-sent
request (as a `NetMessage`) or Python `None`. -/
def would_retransmit (st : ChannelState) (do_retransmit : Bool) :
    ChannelState × Option NetMessage :=
  let idx := advanceRetransmit st.my_requests st.next_retransmit st.my_requests.length
  let request_to_send : Option CommandRequestObject :=
    if do_retransmit then
      match st.my_requests.get? idx with
      | some request => if request.has_response then none else some request
      | none => none
    else none
  let st1 := { st with next_retransmit := idx }
  match request_to_send with
  | some request => (st1, some ⟨st.myself, st.other, request⟩)
  | none => (st1, none)

/-- Python `VASPPairChannel.has_pending_responses`: literally
`return self.would_retransmit()` with the default `do_retransmit=False`. -/
def has_pending_responses (st : ChannelState) : ChannelState × Option NetMessage :=
  would_retransmit st false

/-! ## Inbound request handling (C1) -/
/-- The sequencing branch of `_handle_request` (protocol.py lines 396–409):
compute `seq = next_final_sequence()`, try
`executor.sequence_next_command(request.command, do_not_sequence_errors=False)`
— note that the call site passes no `own` argument, so `own` keeps its
default `True` and the dependency check runs against `potentially_live` —
build the success or command-error response, attach it with `command_seq =
seq`, append to `other_requests` and apply the outcome to the executor.  An
exception from the commit helpers propagates and the enclosing transaction
rolls back to the entry state. -/
def handleRequestSeq (st : ChannelState) (request : CommandRequestObject) :
    ChannelState × Except PyErr (Option CommandResponseObject) :=
  let seq := next_final_sequence st
  let res := sequence_next_command st.executor request.command false true
  let st1 := { st with executor := res.1 }
  let response0 := match res.2 with
    | Except.ok _ => make_success_response request
    | Except.error e => make_command_error request e
  let response := { response0 with command_seq := some seq }
  let request1 := { request with response := some response }
  let st2 := { st1 with other_requests := st1.other_requests ++ [request1] }
  let applied := if request1.is_success then set_success st2.executor seq
                 else set_fail st2.executor seq
  match applied with
  | none => (st, Except.error PyErr.assertionError)
  | some ex2 => ({ st2 with executor := ex2 }, Except.ok (some response))

/-- Embedding of `VASPPairChannel._handle_request` (protocol.py lines
351–418) together with the `atomic_writes` wrapper of `handle_request`
(lines 347–349): old sequence numbers are answered idempotently or with
`conflict`; a server rejects client-supplied `command_seq` as `malformed`
and answers `wait` while it has pending responses; the request at exactly
the next peer sequence number is sequenced (a client first checks the
supplied `command_seq` against its own next sequence — comparing a Python
`None` with an `int` would raise `TypeError`); higher sequence numbers get
`missing`.  `Except.ok` carries the Python return value (the response
object, or Python `None` if a stored request had none). -/
def handle_request (st : ChannelState) (request0 : CommandRequestObject) :
    ChannelState × Except PyErr (Option CommandResponseObject) :=
  let request := { request0 with command := request0.command.set_origin st.other }
  if request.seq < other_next_seq st then
    match st.other_requests.get? request.seq with
    | none => (st, Except.error PyErr.assertionError)
    | some previous_request =>
      if is_same_command previous_request request then
        (st, Except.ok previous_request.response)
      else
        (st, Except.ok (some { make_protocol_error request "conflict" with
                                previous_command := some previous_request.command }))
  else if ch_is_server st && request.command_seq.isSome then
    (st, Except.ok (some (make_protocol_error request "malformed")))
  else if ch_is_server st && decide (0 < num_pending_responses st) then
    (st, Except.ok (some (make_protocol_error request "wait")))
  else if request.seq = other_next_seq st then
    if ch_is_client st then
      match request.command_seq with
      | none => (st, Except.error PyErr.typeError)
      | some cs =>
        if cs > next_final_sequence st then
          (st, Except.ok (some (make_protocol_error request "wait")))
        else handleRequestSeq st request
    else handleRequestSeq st request
  else if request.seq > other_next_seq st then
    (st, Except.ok (some (make_protocol_error request "missing")))
  else (st, Except.error PyErr.assertionError)

/-- Status extractor for the handler result (for stating evaluations without
comparing whole responses, whose `previous_command` holds functions). -/
def responseStatusOf (r : Except PyErr (Option CommandResponseObject)) : Option String :=
  match r with
  | Except.ok (some resp) => some resp.status
  | _ => none

/-- The concrete channel state for the C1 evaluation: the local side is the
client, no requests have been exchanged, and the object store holds version
`v` that is only `potentially_live` (not `actually_live`). -/
def c1State : ChannelState :=
  { myself := ⟨[0]⟩, other := ⟨[1]⟩, my_requests := [], other_requests := [],
    next_retransmit := 0,
    executor := ⟨[], 0, [("v", ⟨"v", [], true, false⟩)], []⟩,
    response_cache := [], waiting_requests := [], waiting_response := [] }

/-- The concrete inbound peer request for the C1 evaluation: the next
expected sequence number, a server-assigned `command_seq`, and a command
that depends on the merely speculative version `v`. -/
def c1Request : CommandRequestObject :=
  { seq := 0, command_seq := some 0,
    command := { depend_on := ["v"], creates := ["w"], commit_status := none,
                 payload := "c1", origin := none,
                 validity_checks := fun _ _ => Except.ok (),
                 get_object := fun _ _ => ⟨"w", [], false, false⟩ },
    response := none }

/-! ## Inbound response handling and the drain loops (C6, C10)

`_handle_response` recursively drives `process_pending_requests_response`,
which drives `process_waiting_messages` and feeds cached responses back into
`handle_response` (whose `atomic_writes` is re-entrant, hence a no-op when
nested).  The recursion is embedded as a single step function over a task
tag, structurally recursive on an explicit fuel; exhausting the fuel yields
`PyErr.outOfFuel`.  Errors propagate to the caller with the state as mutated
so far; only the outermost wrapper rolls back. -/
/-- The task being executed by the recursive channel machinery: handling a
response (`_handle_response`, protocol.py lines 464–548), the pending-drain
(`process_pending_requests_response`, lines 231–242), the waiting-message
drain (`process_waiting_messages`, lines 285–307), its inner while loop over
`waiting_response`, and the iteration over one buffered entry list. -/
inductive ChTask where
  | handleResponse (response : CommandResponseObject)
  | processPending
  | processWaiting
  | waitingLoop
  | drainEntries (entries : List CommandResponseObject)

/-- One fueled execution of a channel task.  Returns the mutated state and
either the Python return value (`True`/`False` for `handleResponse`, `true`
as a dummy for the drain procedures) or the propagating exception. -/
def channelStep : Nat → ChTask → ChannelState → ChannelState × Except PyErr Bool
  | 0, _, st => (st, Except.error PyErr.outOfFuel)
  | Nat.succ fuel, task, st =>
    match task with
    | ChTask.handleResponse response =>
      match response.seq with
      | none =>
        -- a parsing-failure response carries no echoed seq; the code then
        -- asserts it has status failure and returns False
        if response.status = "failure" then (st, Except.ok false)
        else (st, Except.error PyErr.assertionError)
      | some request_seq =>
        if request_seq < st.my_requests.length then
          if not_protocol_failure response then
            -- the next_retransmit optimization runs BEFORE the idempotency
            -- check (lines 482–485)
            let st1 := if st.next_retransmit = request_seq then
                { st with next_retransmit := st.next_retransmit + 1 } else st
            match st1.my_requests.get? request_seq with
            | none => (st1, Except.error PyErr.assertionError)
            | some request =>
              if request.has_response then (st1, Except.ok true)
              else
                match response.command_seq with
                | none => (st1, Except.error PyErr.typeError)
                | some cs =>
                  if cs = next_final_sequence st1 then
                    -- commit the next command: attach the response, sequence
                    -- (exceptions from sequencing are swallowed, but the
                    -- executor keeps any mutation it made), apply, drain
                    let request1 := { request with response := some response }
                    let st2 := { st1 with
                                  my_requests := st1.my_requests.set request_seq request1 }
                    let res := sequence_next_command st2.executor request1.command false true
                    let st3 := { st2 with executor := res.1 }
                    let applied := if request1.is_success then set_success st3.executor cs
                                   else set_fail st3.executor cs
                    match applied with
                    | none => (st3, Except.error PyErr.assertionError)
                    | some ex2 =>
                      let st4 := { st3 with executor := ex2 }
                      let next := channelStep fuel ChTask.processPending st4
                      match next.2 with
                      | Except.error e => (next.1, Except.error e)
                      | Except.ok _ => (next.1, Except.ok true)
                  else if cs < next_final_sequence st1 then
                    -- already in the sequence (server observing its own
                    -- command): attach, apply, drain
                    let request1 := { request with response := some response }
                    let st2 := { st1 with
                                  my_requests := st1.my_requests.set request_seq request1 }
                    let applied := if request1.is_success then set_success st2.executor cs
                                   else set_fail st2.executor cs
                    match applied with
                    | none => (st2, Except.error PyErr.assertionError)
                    | some ex2 =>
                      let st3 := { st2 with executor := ex2 }
                      let next := channelStep fuel ChTask.processPending st3
                      match next.2 with
                      | Except.error e => (next.1, Except.error e)
                      | Except.ok _ => (next.1, Except.ok true)
                  else
                    -- too far in the future: cache for later
                    ({ st1 with response_cache := alistSet st1.response_cache cs response },
                     Except.ok true)
          else
            -- protocol failures: missing/wait/malformed/conflict all return
            -- False, anything else trips the closing assert
            match response.error with
            | some err =>
              if err.code = "missing" ∨ err.code = "wait" ∨ err.code = "malformed" ∨
                  err.code = "conflict" then
                (st, Except.ok false)
              else (st, Except.error PyErr.assertionError)
            | none => (st, Except.error (PyErr.attributeError "code"))
        else (st, Except.ok false)
    | ChTask.processPending =>
      let first := channelStep fuel ChTask.processWaiting st
      match first.2 with
      | Except.error e => (first.1, Except.error e)
      | Except.ok _ =>
        let st1 := first.1
        match alistGet st1.response_cache (next_final_sequence st1) with
        | some response =>
          -- the return value of the nested handle_response is ignored, and
          -- its re-entrant atomic_writes is a no-op
          let next := channelStep fuel (ChTask.handleResponse response) st1
          match next.2 with
          | Except.error e => (next.1, Except.error e)
          | Except.ok _ => (next.1, Except.ok true)
        | none => (st1, Except.ok true)
    | ChTask.processWaiting =>
      let first := channelStep fuel ChTask.waitingLoop st
      match first.2 with
      | Except.error e => (first.1, Except.error e)
      | Except.ok _ =>
        let st1 := first.1
        if (alistGet st1.waiting_requests (other_next_seq st1)).isSome then
          -- protocol.py line 299 reads `self.waiting`, an attribute that
          -- __init__ (lines 139–143) never defines: AttributeError
          (st1, Except.error (PyErr.attributeError "waiting"))
        else (st1, Except.ok true)
    | ChTask.waitingLoop =>
      if (alistGet st.waiting_response (next_final_sequence st)).isSome then
        -- note the loop key mismatch faithfully kept: the guard tests
        -- next_final_sequence, the body drains executor.last_confirmed
        -- (a defaultdict read, so a missing key yields the empty list)
        let next_cmd_seq := st.executor.last_confirmed
        let entries := (alistGet st.waiting_response next_cmd_seq).getD []
        let ran := channelStep fuel (ChTask.drainEntries entries) st
        match ran.2 with
        | Except.error e => (ran.1, Except.error e)
        | Except.ok _ =>
          let st2 := { ran.1 with
                        waiting_response := alistErase ran.1.waiting_response next_cmd_seq }
          channelStep fuel ChTask.waitingLoop st2
      else (st, Except.ok true)
    | ChTask.drainEntries entries =>
      match entries with
      | [] => (st, Except.ok true)
      | response :: rest =>
        -- parse_handle_response_to_future on a buffered (already parsed)
        -- entry: within the window it is re-buffered, otherwise handled
        let nfs := next_final_sequence st
        match response.command_seq with
        | some cs =>
          if nfs < cs ∧ cs < nfs + 1000 then
            let rebuffered :=
              alistSet st.waiting_response cs
                ((alistGet st.waiting_response cs).getD [] ++ [response])
            channelStep fuel (ChTask.drainEntries rest)
              { st with waiting_response := rebuffered }
          else
            let ran := channelStep fuel (ChTask.handleResponse response) st
            match ran.2 with
            | Except.error e => (ran.1, Except.error e)
            | Except.ok _ => channelStep fuel (ChTask.drainEntries rest) ran.1
        | none =>
          let ran := channelStep fuel (ChTask.handleResponse response) st
          match ran.2 with
          | Except.error e => (ran.1, Except.error e)
          | Except.ok _ => channelStep fuel (ChTask.drainEntries rest) ran.1

/-- The `handle_response` entry point (protocol.py lines 460–462): the
outermost `atomic_writes` rolls every write back when an exception escapes
`_handle_response`. -/
def handle_response (fuel : Nat) (st : ChannelState) (response : CommandResponseObject) :
    ChannelState × Except PyErr Bool :=
  match channelStep fuel (ChTask.handleResponse response) st with
  | (_, Except.error e) => (st, Except.error e)
  | (st1, Except.ok b) => (st1, Except.ok b)

/-- A buffered (parsed) inbound request used by the C10 witness. -/
def c10BufferedRequest : CommandRequestObject :=
  { seq := 0, command_seq := none,
    command := { depend_on := [], creates := [], commit_status := none,
                 payload := "w", origin := none,
                 validity_checks := fun _ _ => Except.ok (),
                 get_object := fun _ _ => ⟨"w", [], false, false⟩ },
    response := none }

/-- A channel whose reorder buffer holds a request at the now-current peer
sequence number 0. -/
def c10State : ChannelState :=
  { myself := ⟨[0]⟩, other := ⟨[1]⟩, my_requests := [], other_requests := [],
    next_retransmit := 0, executor := ⟨[], 0, [], []⟩, response_cache := [],
    waiting_requests := [(0, [c10BufferedRequest])], waiting_response := [] }

/-! Concrete data for the C6 counterexample: one local request at seq 0 with
its (success) response already recorded, and the retransmit cursor sitting
at 0. -/
/-- A success response for local request 0 (already applied once). -/
def cexResponse : CommandResponseObject :=
  { seq := some 0, command_seq := some 0, status := "success", error := none,
    previous_command := none }

/-- The stored local request 0, with `cexResponse` attached. -/
def cexRequest : CommandRequestObject :=
  { seq := 0, command_seq := some 0,
    command := { depend_on := [], creates := [], commit_status := none,
                 payload := "x", origin := none,
                 validity_checks := fun _ _ => Except.ok (),
                 get_object := fun _ _ => ⟨"x", [], false, false⟩ },
    response := some cexResponse }

/-- A channel state in which request 0 is answered but the lazily advancing
`next_retransmit` cursor still points at 0. -/
def cexState : ChannelState :=
  { myself := ⟨[0]⟩, other := ⟨[1]⟩, my_requests := [cexRequest], other_requests := [],
    next_retransmit := 0, executor := ⟨[], 0, [], []⟩, response_cache := [],
    waiting_requests := [], waiting_response := [] }

/-- Variant of `cexState` whose cursor does not sit at the redelivered seq. -/
def cexStateW : ChannelState :=
  { cexState with next_retransmit := 5 }

/-! ## Theorems -/

theorem storeGet_storeErase (s : Store) (k v : Version) :
    storeGet (storeErase s k) v = if v = k then none else storeGet s v := by
  induction s with
  | nil => simp [storeErase, storeGet]
  | cons p rest ih =>
    rcases p with ⟨k0, o⟩
    by_cases hk0 : k0 = k <;> by_cases hk0v : k0 = v <;> by_cases hvk : v = k <;>
      simp_all [storeErase, storeGet]

theorem storeGet_storeSet (s : Store) (k v : Version) (o : SharedObject) :
    storeGet (storeSet s k o) v = if v = k then some o else storeGet s v := by
  by_cases hvk : v = k
  · subst hvk
    simp [storeSet, storeGet]
  · have hkv : ¬ k = v := fun h => hvk h.symm
    simp [storeSet, storeGet, hkv, hvk, storeGet_storeErase]

/-! ## Executor lemmas -/
theorem allTrue_iff (s : Store) (vs : List Version) (own : Bool) :
    allTrue s vs own = true ↔
      ∀ v ∈ vs, ∃ o, storeGet s v = some o ∧ livenessPredicate own o = true := by
  unfold allTrue
  rw [List.all_eq_true]
  constructor
  · intro h v hv
    have h1 := h v hv
    rcases hg : storeGet s v with _ | o
    · rw [hg] at h1
      simp at h1
    · rw [hg] at h1
      exact ⟨o, rfl, h1⟩
  · intro h v hv
    rcases h v hv with ⟨o, ho, hpred⟩
    rw [ho]
    exact hpred

theorem storeGet_insertCreates (c : Command) (vs : List Version) (s : Store) (v : Version)
    (h : v ∈ vs ∨ ∃ o, storeGet s v = some o ∧ o.potentially_live = true) :
    ∃ o, storeGet (insertCreates c vs s) v = some o ∧ o.potentially_live = true := by
  induction vs generalizing s with
  | nil =>
    rcases h with h | h
    · cases h
    · exact h
  | cons x xs ih =>
    show ∃ o, storeGet (insertCreates c xs (storeSet s x _)) v = some o ∧ _
    apply ih
    rcases h with h | ⟨o, ho, hpl⟩
    · rcases List.mem_cons.mp h with rfl | hx
      · right
        refine ⟨{ c.get_object v s with potentially_live := true }, ?_, rfl⟩
        rw [storeGet_storeSet]
        simp
      · left
        exact hx
    · by_cases hvx : v = x
      · subst hvx
        right
        refine ⟨{ c.get_object v s with potentially_live := true }, ?_, rfl⟩
        rw [storeGet_storeSet]
        simp
      · right
        refine ⟨o, ?_, hpl⟩
        rw [storeGet_storeSet, if_neg hvx]
        exact ho

theorem storeDeleteAll_spec (vs : List Version) (s : Store)
    (hnd : vs.Nodup) (hpres : ∀ v ∈ vs, (storeGet s v).isSome) :
    ∃ s1, storeDeleteAll s vs = some s1 ∧
      ∀ v, storeGet s1 v = if v ∈ vs then none else storeGet s v := by
  induction vs generalizing s with
  | nil =>
    exact ⟨s, rfl, by simp⟩
  | cons x xs ih =>
    have hx : (storeGet s x).isSome := hpres x (List.mem_cons_self x xs)
    rcases hg : storeGet s x with _ | o
    · rw [hg] at hx
      simp at hx
    have hnd1 : xs.Nodup := (List.nodup_cons.mp hnd).2
    have hxnot : x ∉ xs := (List.nodup_cons.mp hnd).1
    have hpres1 : ∀ v ∈ xs, (storeGet (storeErase s x) v).isSome := by
      intro v hv
      rw [storeGet_storeErase]
      have hvx : ¬ v = x := by
        intro he
        subst he
        exact hxnot hv
      rw [if_neg hvx]
      exact hpres v (List.mem_cons_of_mem x hv)
    rcases ih (storeErase s x) hnd1 hpres1 with ⟨s1, hdel, hget⟩
    refine ⟨s1, ?_, ?_⟩
    · show storeDeleteAll s (x :: xs) = some s1
      unfold storeDeleteAll
      rw [hg]
      exact hdel
    · intro v
      rw [hget v, storeGet_storeErase]
      by_cases hv1 : v ∈ xs
      · simp [hv1]
      · by_cases hv2 : v = x <;> simp [hv1, hv2]

theorem storeSetLiveAll_spec (vs : List Version) (s : Store)
    (hnd : vs.Nodup) (hpres : ∀ v ∈ vs, (storeGet s v).isSome) :
    ∃ s1, storeSetLiveAll s vs = some s1 ∧
      (∀ v ∈ vs, ∃ o, storeGet s1 v = some o ∧ o.actually_live = true) ∧
      (∀ v, v ∉ vs → storeGet s1 v = storeGet s v) := by
  induction vs generalizing s with
  | nil =>
    exact ⟨s, rfl, by simp, fun v _ => rfl⟩
  | cons x xs ih =>
    have hx : (storeGet s x).isSome := hpres x (List.mem_cons_self x xs)
    rcases hg : storeGet s x with _ | o
    · rw [hg] at hx
      simp at hx
    have hnd1 : xs.Nodup := (List.nodup_cons.mp hnd).2
    have hxnot : x ∉ xs := (List.nodup_cons.mp hnd).1
    have hpres1 : ∀ v ∈ xs,
        (storeGet (storeSet s x { o with actually_live := true }) v).isSome := by
      intro v hv
      rw [storeGet_storeSet]
      by_cases hvx : v = x
      · simp [hvx]
      · rw [if_neg hvx]
        exact hpres v (List.mem_cons_of_mem x hv)
    rcases ih _ hnd1 hpres1 with ⟨s1, hrun, hlive, hrest⟩
    refine ⟨s1, ?_, ?_, ?_⟩
    · show storeSetLiveAll s (x :: xs) = some s1
      unfold storeSetLiveAll
      rw [hg]
      exact hrun
    · intro v hv
      rcases List.mem_cons.mp hv with rfl | hv1
      · rw [hrest v hxnot, storeGet_storeSet]
        refine ⟨{ o with actually_live := true }, ?_, rfl⟩
        simp
      · exact hlive v hv1
    · intro v hv
      have hvx : ¬ v = x := fun he => hv (he ▸ List.mem_cons_self x xs)
      have hvxs : v ∉ xs := fun he => hv (List.mem_cons_of_mem x he)
      rw [hrest v hvxs, storeGet_storeSet, if_neg hvx]

/-- Shared helper: with `do_not_sequence_errors = True` the executor leaves its
whole state untouched whenever `sequence_next_command` raises. -/
theorem sequence_next_command_error_state (st : ExecState) (cmd : Command) (own : Bool)
    (e : String) (h : (sequence_next_command st cmd true own).2 = Except.error e) :
    (sequence_next_command st cmd true own).1 = st := by
  unfold sequence_next_command at *
  by_cases hag : allTrue st.object_store (getDependencies cmd) own
  · rcases hvc : cmd.validity_checks st.object_store own with e1 | u <;>
      simp [hag, hvc] at h ⊢
  · simp [hag]

/-- CLAIM C3.  With `do_not_sequence_errors = True`, `sequence_next_command`
either succeeds — appending the command to the command sequence, returning its
index, and inserting every version of `cmd.creates` into the object store with
`potentially_live = true` — or fails, in which case the executor state
(command sequence and object store alike) is exactly as before; and it fails
precisely when some version in `cmd.depend_on` is absent from the object store
or does not satisfy the required liveness predicate, or the command's validity
check raises. -/
theorem sequence_next_command_atomic_on_error (st : ExecState) (cmd : Command) (own : Bool) :
    (∀ e, (sequence_next_command st cmd true own).2 = Except.error e →
      (sequence_next_command st cmd true own).1 = st) ∧
    (∀ pos, (sequence_next_command st cmd true own).2 = Except.ok pos →
      pos = st.seq.length ∧
      (sequence_next_command st cmd true own).1.seq = st.seq ++ [cmd] ∧
      (∀ v ∈ cmd.creates, ∃ o,
        storeGet (sequence_next_command st cmd true own).1.object_store v = some o ∧
        o.potentially_live = true)) ∧
    ((∃ e, (sequence_next_command st cmd true own).2 = Except.error e) ↔
      ((¬ ∀ v ∈ cmd.depend_on, ∃ o,
          storeGet st.object_store v = some o ∧ livenessPredicate own o = true) ∨
       (∃ e, cmd.validity_checks st.object_store own = Except.error e))) := by
  have hdeps : (∀ v ∈ cmd.depend_on, ∃ o,
      storeGet st.object_store v = some o ∧ livenessPredicate own o = true) ↔
      allTrue st.object_store (getDependencies cmd) own = true := by
    rw [allTrue_iff]
    unfold getDependencies
    constructor
    · intro h v hv
      exact h v (List.mem_dedup.mp hv)
    · intro h v hv
      exact h v (List.mem_dedup.mpr hv)
  refine ⟨fun e h => sequence_next_command_error_state st cmd own e h, ?_, ?_⟩
  · intro pos h
    by_cases hag : allTrue st.object_store (getDependencies cmd) own
    · rcases hvc : cmd.validity_checks st.object_store own with e1 | u
      · have heq : sequence_next_command st cmd true own = (st, Except.error e1) := by
          simp [sequence_next_command, hag, hvc]
        rw [heq] at h
        cases h
      · have heq : sequence_next_command st cmd true own =
            ({ st with
                object_store := insertCreates cmd (newObjectVersions cmd) st.object_store,
                seq := st.seq ++ [cmd] }, Except.ok st.seq.length) := by
          simp [sequence_next_command, hag, hvc]
        rw [heq] at h ⊢
        refine ⟨by cases h; rfl, rfl, ?_⟩
        intro v hv
        apply storeGet_insertCreates
        left
        unfold newObjectVersions
        exact List.mem_dedup.mpr hv
    · have heq : sequence_next_command st cmd true own =
          (st, Except.error "Required objects do not exist") := by
        simp [sequence_next_command, hag]
      rw [heq] at h
      cases h
  · by_cases hag : allTrue st.object_store (getDependencies cmd) own
    · rcases hvc : cmd.validity_checks st.object_store own with e1 | u
      · have heq : sequence_next_command st cmd true own = (st, Except.error e1) := by
          simp [sequence_next_command, hag, hvc]
        rw [heq]
        constructor
        · intro _
          right
          exact ⟨e1, rfl⟩
        · intro _
          exact ⟨e1, rfl⟩
      · have heq : sequence_next_command st cmd true own =
            ({ st with
                object_store := insertCreates cmd (newObjectVersions cmd) st.object_store,
                seq := st.seq ++ [cmd] }, Except.ok st.seq.length) := by
          simp [sequence_next_command, hag, hvc]
        rw [heq]
        constructor
        · rintro ⟨e, he⟩
          cases he
        · rintro (h | ⟨e, he⟩)
          · exact absurd (hdeps.mpr hag) h
          · cases he
    · have heq : sequence_next_command st cmd true own =
          (st, Except.error "Required objects do not exist") := by
        simp [sequence_next_command, hag]
      rw [heq]
      constructor
      · intro _
        left
        intro hall
        exact hag (hdeps.mp hall)
      · intro _
        exact ⟨_, rfl⟩

/-- Witness for C3: on an executor with an empty object store, a command that
depends on version `v` fails and leaves the state unchanged, and the failure
is reported through the missing-dependency disjunct. -/
theorem sequence_next_command_atomic_on_error_witness :
    (sequence_next_command ⟨[], 0, [], []⟩
      { depend_on := ["v"], creates := ["w"], commit_status := none, payload := "p",
        origin := none, validity_checks := fun _ _ => Except.ok (),
        get_object := fun _ _ => ⟨"w", [], false, false⟩ } true true).1 = ⟨[], 0, [], []⟩ :=
  (sequence_next_command_atomic_on_error ⟨[], 0, [], []⟩
    { depend_on := ["v"], creates := ["w"], commit_status := none, payload := "p",
      origin := none, validity_checks := fun _ _ => Except.ok (),
      get_object := fun _ _ => ⟨"w", [], false, false⟩ } true).1
    "Required objects do not exist" (by rfl)

/-- CLAIM C4.  `set_success(seq)` requires `seq == last_confirmed` (any other
index trips the assertion and nothing is committed); when `seq` is the current
commit cursor and `command_sequence[seq]` is a sequenced command whose
dependency and created versions are present (with the two sets disjoint, an
invariant of sequenced commands), it deletes every dependency version from the
object store, sets `actually_live = true` on every created version, increments
`last_confirmed`, marks the command's commit status as success, and invokes
the command's `on_success` hook. -/
theorem set_success_commits_command (st : ExecState) (seq_no : Nat) :
    (seq_no ≠ st.last_confirmed → set_success st seq_no = none) ∧
    (∀ command, seq_no = st.last_confirmed → st.seq.get? seq_no = some command →
      (∀ v ∈ getDependencies command, (storeGet st.object_store v).isSome) →
      (∀ v ∈ newObjectVersions command,
        (storeGet st.object_store v).isSome ∧ v ∉ getDependencies command) →
      ∃ st1, set_success st seq_no = some st1 ∧
        (∀ v ∈ getDependencies command, storeGet st1.object_store v = none) ∧
        (∀ v ∈ newObjectVersions command, ∃ o,
          storeGet st1.object_store v = some o ∧ o.actually_live = true) ∧
        st1.last_confirmed = st.last_confirmed + 1 ∧
        st1.seq.get? seq_no = some { command with commit_status := some true } ∧
        st1.events = st.events ++ [ExecEvent.onSuccessEv command.payload]) := by
  constructor
  · intro hne
    unfold set_success
    rw [if_neg hne]
  · intro command h1 h2 h3 h4
    have hnd : (getDependencies command).Nodup := List.nodup_dedup _
    have hndc : (newObjectVersions command).Nodup := List.nodup_dedup _
    rcases storeDeleteAll_spec (getDependencies command) st.object_store hnd h3 with
      ⟨s1, hdel, hget⟩
    have hpres2 : ∀ v ∈ newObjectVersions command, (storeGet s1 v).isSome := by
      intro v hv
      rw [hget v, if_neg (h4 v hv).2]
      exact (h4 v hv).1
    rcases storeSetLiveAll_spec (newObjectVersions command) s1 hndc hpres2 with
      ⟨s2, hrun, hlive, hrest⟩
    have heq : set_success st seq_no =
        some { st with
                last_confirmed := st.last_confirmed + 1,
                seq := st.seq.set seq_no { command with commit_status := some true },
                object_store := s2,
                events := st.events ++ [ExecEvent.onSuccessEv command.payload] } := by
      unfold set_success
      rw [if_pos h1, h2]
      simp only [hdel, hrun]
    refine ⟨_, heq, ?_, hlive, rfl, ?_, rfl⟩
    · intro v hv
      have hvc : v ∉ newObjectVersions command := by
        intro hmem
        exact (h4 v hmem).2 hv
      rw [hrest v hvc, hget v, if_pos hv]
    · have hlt : seq_no < st.seq.length := by
        rcases List.get?_eq_some.mp h2 with ⟨hl, _⟩
        exact hl
      exact List.get?_set_eq_of_lt _ hlt

/-- Witness for C4: a concrete executor with one sequenced command that
depends on `v` and creates `w`; `set_success 0` deletes `v`, makes `w`
actually live, advances the cursor, marks success and fires the hook. -/
theorem set_success_commits_command_witness :
    ∃ st1,
      set_success
        { seq := [{ depend_on := ["v"], creates := ["w"], commit_status := none,
                    payload := "p", origin := none,
                    validity_checks := fun _ _ => Except.ok (),
                    get_object := fun _ _ => ⟨"w", [], false, false⟩ }],
          last_confirmed := 0,
          object_store := [("v", ⟨"v", [], true, true⟩), ("w", ⟨"w", [], true, false⟩)],
          events := [] } 0 = some st1 ∧
      storeGet st1.object_store "v" = none ∧
      st1.last_confirmed = 1 := by
  rcases (set_success_commits_command
      { seq := [{ depend_on := ["v"], creates := ["w"], commit_status := none,
                  payload := "p", origin := none,
                  validity_checks := fun _ _ => Except.ok (),
                  get_object := fun _ _ => ⟨"w", [], false, false⟩ }],
        last_confirmed := 0,
        object_store := [("v", ⟨"v", [], true, true⟩), ("w", ⟨"w", [], true, false⟩)],
        events := [] } 0).2
      _ rfl rfl (by decide) (by decide) with
    ⟨st1, hrun, hdeps, hrest⟩
  refine ⟨st1, hrun, ?_, hrest.2.1⟩
  apply hdeps
  decide

theorem b64encodeChars_length : ∀ l : List Nat,
    (b64encodeChars l).length = 4 * ((l.length + 2) / 3)
  | [] => rfl
  | [_] => by simp [b64encodeChars]
  | [_, _] => by simp [b64encodeChars]
  | _ :: _ :: _ :: rest => by
    have ih := b64encodeChars_length rest
    have harith : rest.length + 3 + 2 = rest.length + 2 + 3 := by omega
    simp only [b64encodeChars, List.length_cons, ih, harith,
      Nat.add_div_right _ (by norm_num : 0 < 3)]
    ring

/-- Counterexample to C8 as stated: constructing a `SharedObject` from 16
zero bytes yields the version `AAAAAAAAAAAAAAAAAAAAAA==`, a 24-character
Base64 string containing the non-hex character `=`, not a 32-character
hexadecimal string. -/
theorem shared_object_version_not_hex32 :
    specVersionIsHex32 (SharedObject.init (List.replicate 16 0)).version = false ∧
    (SharedObject.init (List.replicate 16 0)).version = "AAAAAAAAAAAAAAAAAAAAAA==" := by
  constructor <;> decide

/-- C8 as amended: every version identifier minted for a newly constructed
`SharedObject` (and for every revision made by `new_version` without an
explicit version argument) is the standard Base64 rendering of the 16 random
bytes — a 24-character string — rather than a 32-character hex string. -/
theorem shared_object_version_base64_24 (entropy : List Nat) (h : entropy.length = 16) :
    (SharedObject.init entropy).version = get_unique_string entropy ∧
    (SharedObject.init entropy).version.length = 24 ∧
    ∀ so : SharedObject,
      (so.new_version none entropy).version = get_unique_string entropy ∧
      (so.new_version none entropy).version.length = 24 := by
  have hlen : (get_unique_string entropy).length = 24 := by
    show (b64encodeChars entropy).length = 24
    rw [b64encodeChars_length, h]
  exact ⟨rfl, hlen, fun so => ⟨rfl, hlen⟩⟩

/-- Witness for the amended C8 at a concrete entropy input. -/
theorem shared_object_version_base64_24_witness :
    (SharedObject.init (List.replicate 16 37)).version.length = 24 :=
  (shared_object_version_base64_24 (List.replicate 16 37) (by decide)).2.1

theorem lexLt_antisymm : ∀ as bs : List Nat, as ≠ bs → lexLt as bs = !lexLt bs as
  | [], [], h => absurd rfl h
  | [], _ :: _, _ => rfl
  | _ :: _, [], _ => rfl
  | a :: as, b :: bs, h => by
    rcases Nat.lt_trichotomy a b with hab | hab | hab
    · simp [lexLt, hab, Nat.lt_asymm hab, Nat.ne_of_lt hab]
    · subst hab
      have htl : as ≠ bs := by
        intro he
        exact h (by rw [he])
      simp [lexLt, lexLt_antisymm as bs htl]
    · simp [lexLt, hab, Nat.lt_asymm hab, Nat.ne_of_gt hab]

/-- CLAIM C2.  Role assignment is deterministic and antisymmetric: with
`b = lastbit(A) XOR lastbit(B)`, the local side is client iff
(`b = 0` and `A >= B` lexicographically) or (`b = 1` and `A < B`); for
distinct addresses `is_client(A,B)` is the negation of `is_client(B,A)` (so
exactly one side is client), and constructing a channel between equal
addresses raises while distinct addresses are accepted. -/
theorem role_assignment_deterministic_antisymmetric (A B : LibraAddress)
    (h : A.bytes ≠ B.bytes) :
    (is_client A B = true ↔
      ((A.last_bit ^^^ B.last_bit = 0 ∧ A.greater_than_or_equal B = true) ∨
       (A.last_bit ^^^ B.last_bit = 1 ∧ lexLt A.bytes B.bytes = true))) ∧
    is_client A B = !(is_client B A) ∧
    channel_init_check A B = Except.ok () ∧
    channel_init_check A A = Except.error "Must talk to another VASP" := by
  have hbit : A.last_bit ^^^ B.last_bit = 0 ∨ A.last_bit ^^^ B.last_bit = 1 := by
    unfold LibraAddress.last_bit
    rcases Nat.mod_two_eq_zero_or_one (A.bytes.getLast?.getD 0) with ha | ha <;>
      rcases Nat.mod_two_eq_zero_or_one (B.bytes.getLast?.getD 0) with hb | hb <;>
        simp [ha, hb]
  have hsymm : B.last_bit ^^^ A.last_bit = A.last_bit ^^^ B.last_bit := Nat.xor_comm _ _
  have hlex : lexLt A.bytes B.bytes = !lexLt B.bytes A.bytes := lexLt_antisymm _ _ h
  refine ⟨?_, ?_, ?_, ?_⟩
  · rcases hbit with hb | hb
    · simp [is_client, hb, LibraAddress.greater_than_or_equal]
    · simp [is_client, hb, LibraAddress.greater_than_or_equal]
  · rcases hbit with hb | hb
    · simp [is_client, hb, hsymm.trans hb, LibraAddress.greater_than_or_equal, hlex]
    · simp [is_client, hb, hsymm.trans hb, LibraAddress.greater_than_or_equal, hlex]
  · unfold channel_init_check
    rw [if_neg h]
  · unfold channel_init_check
    rw [if_pos rfl]

/-- Witness for C2 on the concrete pair of addresses `[0]` and `[1]`. -/
theorem role_assignment_deterministic_antisymmetric_witness :
    is_client ⟨[0]⟩ ⟨[1]⟩ = !(is_client ⟨[1]⟩ ⟨[0]⟩) :=
  (role_assignment_deterministic_antisymmetric ⟨[0]⟩ ⟨[1]⟩ (by decide)).2.1

theorem decChars_isDigit (n : Nat) : ∀ c ∈ decChars n, c.isDigit = true := by
  intro c hc
  unfold decChars at hc
  by_cases h0 : n = 0
  · rw [if_pos h0] at hc
    rcases List.mem_singleton.mp hc with rfl
    decide
  · rw [if_neg h0] at hc
    rcases List.mem_map.mp hc with ⟨d, hd, rfl⟩
    have hd10 : d < 10 :=
      Nat.digits_lt_base (by norm_num) (List.mem_reverse.mp hd)
    interval_cases d <;> decide

theorem digitChar_inj (d e : Nat) (hd : d < 10) (he : e < 10)
    (h : Char.ofNat (48 + d) = Char.ofNat (48 + e)) : d = e := by
  interval_cases d <;> interval_cases e <;> first | rfl | (exact absurd h (by decide))

theorem decChars_inj (m n : Nat) (h : decChars m = decChars n) : m = n := by
  unfold decChars at h
  by_cases hm : m = 0 <;> by_cases hn : n = 0
  · rw [hm, hn]
  · rw [if_pos hm, if_neg hn] at h
    have hlen : ((Nat.digits 10 n).reverse.map (fun d => Char.ofNat (48 + d))).length = 1 := by
      rw [← h]
      rfl
    rcases List.length_eq_one.mp (by simpa using hlen) with ⟨d, hd⟩
    rw [hd] at h
    have hd10 : d < 10 := by
      have : d ∈ (Nat.digits 10 n).reverse := by
        rw [hd]
        exact List.mem_singleton.mpr rfl
      exact Nat.digits_lt_base (by norm_num) (List.mem_reverse.mp this)
    have hchar : Char.ofNat (48 + 0) = Char.ofNat (48 + d) := by
      have := List.head_eq_of_cons_eq h
      simpa using this
    have hd0 : d = 0 := (digitChar_inj 0 d (by norm_num) hd10 hchar).symm
    subst hd0
    have : Nat.digits 10 n = [0] := by
      have := congrArg List.reverse hd
      simpa using this
    have := congrArg (Nat.ofDigits 10) this
    rw [Nat.ofDigits_digits] at this
    simp [Nat.ofDigits] at this
    exact absurd this hn
  · rw [if_neg hm, if_pos hn] at h
    have hlen : ((Nat.digits 10 m).reverse.map (fun d => Char.ofNat (48 + d))).length = 1 := by
      rw [h]
      rfl
    rcases List.length_eq_one.mp (by simpa using hlen) with ⟨d, hd⟩
    rw [hd] at h
    have hd10 : d < 10 := by
      have : d ∈ (Nat.digits 10 m).reverse := by
        rw [hd]
        exact List.mem_singleton.mpr rfl
      exact Nat.digits_lt_base (by norm_num) (List.mem_reverse.mp this)
    have hchar : Char.ofNat (48 + d) = Char.ofNat (48 + 0) := by
      have := List.head_eq_of_cons_eq h
      simpa using this
    have hd0 : d = 0 := digitChar_inj d 0 hd10 (by norm_num) hchar
    subst hd0
    have : Nat.digits 10 m = [0] := by
      have := congrArg List.reverse hd
      simpa using this
    have := congrArg (Nat.ofDigits 10) this
    rw [Nat.ofDigits_digits] at this
    simp [Nat.ofDigits] at this
    exact absurd this hm
  · rw [if_neg hm, if_neg hn] at h
    have hmap : (Nat.digits 10 m).reverse = (Nat.digits 10 n).reverse := by
      have hdm : ∀ d ∈ (Nat.digits 10 m).reverse, d < 10 := fun d hd =>
        Nat.digits_lt_base (by norm_num) (List.mem_reverse.mp hd)
      have hdn : ∀ d ∈ (Nat.digits 10 n).reverse, d < 10 := fun d hd =>
        Nat.digits_lt_base (by norm_num) (List.mem_reverse.mp hd)
      clear hm hn
      generalize (Nat.digits 10 m).reverse = l1 at *
      generalize (Nat.digits 10 n).reverse = l2 at *
      induction l1 generalizing l2 with
      | nil =>
        cases l2 with
        | nil => rfl
        | cons b bs => cases h
      | cons a as ih =>
        cases l2 with
        | nil => cases h
        | cons b bs =>
          have hab : a = b := by
            apply digitChar_inj a b (hdm a (List.mem_cons_self a as))
              (hdn b (List.mem_cons_self b bs))
            exact List.head_eq_of_cons_eq h
          have htl := ih (fun d hd => hdm d (List.mem_cons_of_mem a hd)) bs
            (fun d hd => hdn d (List.mem_cons_of_mem b hd)) (List.tail_eq_of_cons_eq h)
          rw [hab, htl]
    have := List.reverse_injective hmap
    have := congrArg (Nat.ofDigits 10) this
    rwa [Nat.ofDigits_digits, Nat.ofDigits_digits] at this

theorem digitRun_peel : ∀ ds es xs ys : List Char,
    (∀ c ∈ ds, c.isDigit = true) → (∀ c ∈ es, c.isDigit = true) →
    ds ++ ':' :: xs = es ++ ':' :: ys → ds = es ∧ xs = ys
  | [], [], xs, ys, _, _, h => ⟨rfl, List.tail_eq_of_cons_eq h⟩
  | [], e :: es, xs, ys, _, hes, h => by
    have : (':' : Char) = e := List.head_eq_of_cons_eq h
    have hde : e.isDigit = true := hes e (List.mem_cons_self e es)
    rw [← this] at hde
    exact absurd hde (by decide)
  | d :: ds, [], xs, ys, hds, _, h => by
    have : d = (':' : Char) := List.head_eq_of_cons_eq h
    have hdd : d.isDigit = true := hds d (List.mem_cons_self d ds)
    rw [this] at hdd
    exact absurd hdd (by decide)
  | d :: ds, e :: es, xs, ys, hds, hes, h => by
    have hde : d = e := List.head_eq_of_cons_eq h
    have htl := digitRun_peel ds es xs ys
      (fun c hc => hds c (List.mem_cons_of_mem d hc))
      (fun c hc => hes c (List.mem_cons_of_mem e hc))
      (List.tail_eq_of_cons_eq h)
    exact ⟨by rw [hde, htl.1], htl.2⟩

theorem encodeOne_append (s X : List Char) :
    encodeOne s ++ X = '[' :: (decChars s.length ++ ':' :: (s ++ (']' :: X))) := by
  simp [encodeOne]

/-- Core step shared by the cases of the injectivity proof: equal joined
encodings with equal-shaped heads force equal head strings and equal tails. -/
theorem encodeOne_peel (s t X1 X2 : List Char)
    (h : encodeOne s ++ X1 = encodeOne t ++ X2) : s = t ∧ X1 = X2 := by
  rw [encodeOne_append, encodeOne_append] at h
  have h1 := List.tail_eq_of_cons_eq h
  rcases digitRun_peel _ _ _ _ (decChars_isDigit s.length) (decChars_isDigit t.length) h1 with
    ⟨hdec, h2⟩
  have hslen : s.length = t.length := decChars_inj _ _ hdec
  rcases List.append_inj h2 hslen with ⟨hst, h3⟩
  exact ⟨hst, List.tail_eq_of_cons_eq h3⟩

/-- CLAIM C7.  `key_join` is injective on lists of strings — two different
hierarchical base-key paths (even with strings containing the delimiter
characters) always produce different joined keys — hence two storables with
different base keys feed different preimages to SHA-256 and obtain different
namespace identifiers up to hash collisions. -/
theorem key_join_injective : ∀ l1 l2 : List (List Char),
    key_join l1 = key_join l2 → l1 = l2
  | [], [], _ => rfl
  | [], t :: r2, h => by
    cases r2 <;> simp [key_join, encodeOne] at h
  | s :: r1, [], h => by
    cases r1 <;> simp [key_join, encodeOne] at h
  | [s], [t], h => by
    have h1 : encodeOne s ++ ([] : List Char) = encodeOne t ++ [] := by
      simpa [key_join] using h
    rcases encodeOne_peel s t [] [] h1 with ⟨hst, _⟩
    rw [hst]
  | [s], t :: t2 :: r2, h => by
    have h1 : encodeOne s ++ ([] : List Char) =
        encodeOne t ++ ('|' :: '|' :: key_join (t2 :: r2)) := by
      simpa [key_join] using h
    rcases encodeOne_peel s t _ _ h1 with ⟨_, hX⟩
    cases hX
  | s :: s2 :: r1, [t], h => by
    have h1 : encodeOne s ++ ('|' :: '|' :: key_join (s2 :: r1)) =
        encodeOne t ++ ([] : List Char) := by
      simpa [key_join] using h
    rcases encodeOne_peel s t _ _ h1 with ⟨_, hX⟩
    cases hX
  | s :: s2 :: r1, t :: t2 :: r2, h => by
    have h1 : encodeOne s ++ ('|' :: '|' :: key_join (s2 :: r1)) =
        encodeOne t ++ ('|' :: '|' :: key_join (t2 :: r2)) := by
      simpa [key_join] using h
    rcases encodeOne_peel s t _ _ h1 with ⟨hst, hX⟩
    have hrest : key_join (s2 :: r1) = key_join (t2 :: r2) :=
      List.tail_eq_of_cons_eq (List.tail_eq_of_cons_eq hX)
    have := key_join_injective (s2 :: r1) (t2 :: r2) hrest
    rw [hst, this]

/-- Witness for C7 at concrete inputs: two base keys that agree after joining
are equal (and adversarial delimiters in a path element do not collide with a
split path). -/
theorem key_join_injective_witness :
    base_key [['a']] ['b'] = base_key [['a']] ['b'] ∧
    key_join [['1', ':', 'x', ']', '|', '|', '[']] ≠ key_join [['1'], ['x']] :=
  ⟨key_join_injective (base_key [['a']] ['b']) (base_key [['a']] ['b']) rfl,
   fun h => by cases key_join_injective _ _ h⟩

/-- CLAIM C5.  When the local VASP is the server and the executor rejects the
locally submitted command, `sequence_command_local` aborts atomically: the
exception propagates to the caller, the channel state (in particular
`my_requests`) is exactly the entry state — the storage transaction rolls
back — and no wire request is emitted. -/
theorem sequence_command_local_server_aborts_atomically
    (st : ChannelState) (off_chain_command : Command) (e : String)
    (hs : ch_is_server st = true)
    (hf : (sequence_next_command st.executor
            (off_chain_command.set_origin st.myself) true true).2 = Except.error e) :
    sequence_command_local st off_chain_command = (st, Except.error (PyErr.executorError e)) := by
  unfold sequence_command_local
  simp only [hs, if_true, hf]

/-- Witness for C5: a server-side channel whose executor lacks the command's
dependency; submission returns the entry state and the executor error. -/
theorem sequence_command_local_server_aborts_atomically_witness :
    sequence_command_local
      { myself := ⟨[1]⟩, other := ⟨[0]⟩, my_requests := [], other_requests := [],
        next_retransmit := 0, executor := ⟨[], 0, [], []⟩, response_cache := [],
        waiting_requests := [], waiting_response := [] }
      { depend_on := ["v"], creates := ["w"], commit_status := none, payload := "p",
        origin := none, validity_checks := fun _ _ => Except.ok (),
        get_object := fun _ _ => ⟨"w", [], false, false⟩ } =
    ({ myself := ⟨[1]⟩, other := ⟨[0]⟩, my_requests := [], other_requests := [],
       next_retransmit := 0, executor := ⟨[], 0, [], []⟩, response_cache := [],
       waiting_requests := [], waiting_response := [] },
     Except.error (PyErr.executorError "Required objects do not exist")) :=
  sequence_command_local_server_aborts_atomically _ _ _ (by decide) (by rfl)

/-- CLAIM C9.  `would_retransmit` called with `do_retransmit=False` always
returns Python `None` — also in states where some request has no response —
so `has_pending_responses` always evaluates to a falsy value and never
reports pending responses. -/
theorem would_retransmit_no_retransmit_returns_none (st : ChannelState) :
    (would_retransmit st false).2 = none ∧ (has_pending_responses st).2 = none := by
  constructor <;> simp [has_pending_responses, would_retransmit]

/-- CLAIM C1 (behaviour of the code at the failing input).  Handling an
inbound peer request whose `seq` equals `len(other_requests)` does NOT
require `actually_live` dependencies: `_handle_request` calls
`sequence_next_command` without passing `own=False`, so the default
`own=True` applies the speculative `potentially_live` check.  At a state
whose store holds the dependency `v` with `potentially_live = true` but
`actually_live = false`, the handler returns a SUCCESS response, where the
claim (and the executor's own comment, `src/executor.py` lines 150–153)
demands a failure response. -/
theorem handle_request_sequences_speculatively :
    (∃ o, storeGet c1State.executor.object_store "v" = some o ∧
      o.potentially_live = true ∧ o.actually_live = false) ∧
    responseStatusOf (handle_request c1State c1Request).2 = some "success" := by
  constructor
  · exact ⟨⟨"v", [], true, false⟩, rfl, rfl, rfl⟩
  · rfl

/-! ## Theorems on the response path -/
/-- No channel task ever touches `waiting_requests` or `other_requests`:
the drain machinery mutates `my_requests`, `next_retransmit`, the executor,
`response_cache` and `waiting_response` only (`waiting_requests` is only
written by `parse_handle_request_to_future`, and `other_requests` only by
`_handle_request`, neither of which is reachable from a response). -/
theorem channelStep_preserves_buffers : ∀ (fuel : Nat) (task : ChTask) (st : ChannelState),
    (channelStep fuel task st).1.waiting_requests = st.waiting_requests ∧
    (channelStep fuel task st).1.other_requests = st.other_requests := by
  intro fuel
  induction fuel with
  | zero =>
    intro task st
    exact ⟨rfl, rfl⟩
  | succ f ih =>
    intro task st
    have ihw : ∀ (t : ChTask) (s : ChannelState),
        (channelStep f t s).1.waiting_requests = s.waiting_requests := fun t s => (ih t s).1
    have iho : ∀ (t : ChTask) (s : ChannelState),
        (channelStep f t s).1.other_requests = s.other_requests := fun t s => (ih t s).2
    cases task <;>
      · unfold channelStep
        dsimp only
        repeat' split
        all_goals constructor
        all_goals first
          | rfl
          | (simp only [ihw, iho]
             try rfl)

/-- CLAIM C10.  Whenever `process_waiting_messages` reaches a state in which
`other_next_seq()` is a key of `waiting_requests`, it raises
`AttributeError` — the loop body reads the nonexistent attribute
`self.waiting` instead of `self.waiting_requests` — so the call never
returns normally (first conjunct, for any fuel), and when the
`waiting_response` buffer is empty the error surfaces directly as the
`AttributeError` with the entry state unchanged (second conjunct); hence a
buffered inbound request is never successfully re-processed by this drain
loop. -/
theorem process_waiting_messages_attribute_error (st : ChannelState)
    (hbuf : (alistGet st.waiting_requests (other_next_seq st)).isSome = true) :
    (∀ fuel, ∃ e : PyErr, (channelStep fuel ChTask.processWaiting st).2 = Except.error e) ∧
    (st.waiting_response = [] →
      ∀ fuel, channelStep (fuel + 2) ChTask.processWaiting st =
        (st, Except.error (PyErr.attributeError "waiting"))) := by
  constructor
  · intro fuel
    match fuel with
    | 0 => exact ⟨PyErr.outOfFuel, rfl⟩
    | Nat.succ f =>
      have hw := (channelStep_preserves_buffers f ChTask.waitingLoop st).1
      have ho := (channelStep_preserves_buffers f ChTask.waitingLoop st).2
      have hcond : (alistGet (channelStep f ChTask.waitingLoop st).1.waiting_requests
          (other_next_seq (channelStep f ChTask.waitingLoop st).1)).isSome = true := by
        unfold other_next_seq
        rw [hw, ho]
        exact hbuf
      unfold channelStep
      dsimp only
      split
      · exact ⟨_, rfl⟩
      · rw [if_pos hcond]
        exact ⟨_, rfl⟩
  · intro hwr fuel
    have hloop : channelStep (fuel + 1) ChTask.waitingLoop st = (st, Except.ok true) := by
      unfold channelStep
      dsimp only
      rw [hwr]
      rfl
    show channelStep (Nat.succ (fuel + 1)) ChTask.processWaiting st = _
    unfold channelStep
    dsimp only
    rw [hloop]
    dsimp only
    rw [if_pos hbuf]

/-- Witness for C10: a channel with one buffered out-of-order request whose
sequence number has become current; the drain raises `AttributeError`. -/
theorem process_waiting_messages_attribute_error_witness :
    channelStep 2 ChTask.processWaiting c10State =
      (c10State, Except.error (PyErr.attributeError "waiting")) :=
  (process_waiting_messages_attribute_error c10State (by rfl)).2 (by rfl) 0

/-- CLAIM C6 as amended.  Re-delivering a non-protocol-failure response whose
request already has a response recorded returns `True` and leaves
`my_requests`, `other_requests`, the executor and the ephemeral buffers
unchanged; `next_retransmit`, however, is not always unchanged: the cursor
optimization runs before the idempotency check, so when `next_retransmit`
equals `response.seq` it is advanced to `response.seq + 1`. -/
theorem handle_response_idempotent_amended (fuel : Nat) (st : ChannelState)
    (response : CommandResponseObject) (rs : Nat) (request : CommandRequestObject)
    (hseq : response.seq = some rs)
    (hnp : not_protocol_failure response = true)
    (hget : st.my_requests.get? rs = some request)
    (hresp : request.has_response = true) :
    channelStep (fuel + 1) (ChTask.handleResponse response) st =
      (if st.next_retransmit = rs then { st with next_retransmit := st.next_retransmit + 1 }
       else st,
       Except.ok true) := by
  have hlt : rs < st.my_requests.length := by
    rcases List.get?_eq_some.mp hget with ⟨h, _⟩
    exact h
  show channelStep (Nat.succ fuel) (ChTask.handleResponse response) st = _
  unfold channelStep
  try dsimp only
  rw [hseq]
  try dsimp only
  rw [if_pos hlt, if_pos hnp]
  by_cases hnr : st.next_retransmit = rs
  · rw [if_pos hnr]
    try dsimp only
    rw [hget]
    try dsimp only
    rw [if_pos hresp]
  · rw [if_neg hnr]
    try dsimp only
    rw [hget]
    try dsimp only
    rw [if_pos hresp]

/-- Counterexample to C6 as stated: redelivering the already-applied
response for request 0 (which has a response recorded and is not a protocol
failure) returns `True` but does NOT leave the persistent state unchanged —
`next_retransmit` moves from 0 to 1. -/
theorem handle_response_redelivery_moves_next_retransmit :
    cexRequest.has_response = true ∧
    not_protocol_failure cexResponse = true ∧
    (channelStep 1 (ChTask.handleResponse cexResponse) cexState).2 = Except.ok true ∧
    cexState.next_retransmit = 0 ∧
    (channelStep 1 (ChTask.handleResponse cexResponse) cexState).1.next_retransmit = 1 :=
  ⟨rfl, rfl, rfl, rfl, rfl⟩

/-- Witness for the amended C6 at a concrete input (cursor away from the
redelivered seq, so the state is returned entirely unchanged). -/
theorem handle_response_idempotent_amended_witness :
    channelStep 1 (ChTask.handleResponse cexResponse) cexStateW =
      (if cexStateW.next_retransmit = 0 then
        { cexStateW with next_retransmit := cexStateW.next_retransmit + 1 }
       else cexStateW, Except.ok true) :=
  handle_response_idempotent_amended 0 cexStateW cexResponse 0 cexRequest rfl rfl rfl rfl

end OffChain
